/-
Verification of the Venmo transaction export pipeline (main.go).

The embedding below translates the Go program into Lean:
* timestamps are modelled as `Int` nanoseconds since the Unix epoch
  (Go `time.Time` instants; `Time.Before` is `<` on instants);
* `time.Parse` for the layouts `"2006-01-02"`, RFC3339 and
  `"2006-01-02T15:04:05"` is modelled by character-level parsers with the
  same fixed-width digit fields, range validation and optional fractional
  seconds (Unicode lowercasing beyond ASCII, hexadecimal floats and
  digit-separating underscores are outside the model);
* `strconv.ParseFloat(s, 32)` is modelled exactly: the decimal value is
  rounded to the nearest IEEE-754 binary32 value (ties to even), which is
  represented exactly as a sign/mantissa/exponent triple `FVal` over `Nat`
  and `Int` (non-finite specials such as "inf"/"nan" are outside the model);
* `strconv.FormatFloat(x, 'f', 2, 64)` is modelled by exact decimal
  rounding (ties to even) of that value at two fractional digits;
* the process's two output streams are modelled by `Output`:
  `fmt.Println` and the CSV writer append to `stdout`, the `log` package
  writes to `stderr`, `log.Fatalf` additionally clears `exitZero`
  (`bufio` flush ordering inside stdout is not modelled; only stream
  membership and row order are).
-/
import Mathlib

namespace VenmoExport

/-! ### Character and digit utilities -/

def digit? (c : Char) : Bool := '0' ≤ c && c ≤ '9'

def digVal (c : Char) : Nat := c.toNat - '0'.toNat

def natOfDigits (ds : List Char) : Nat := ds.foldl (fun a c => a * 10 + digVal c) 0

/-- Read exactly two decimal digits (Go's fixed-width `getnum`). -/
def take2 : List Char → Option (Nat × List Char)
  | a :: b :: rest =>
    if digit? a && digit? b then some (digVal a * 10 + digVal b, rest) else none
  | _ => none

/-- Read exactly four decimal digits (Go's `stdLongYear`). -/
def take4 : List Char → Option (Nat × List Char)
  | a :: b :: c :: d :: rest =>
    if digit? a && digit? b && digit? c && digit? d then
      some (((digVal a * 10 + digVal b) * 10 + digVal c) * 10 + digVal d, rest)
    else none
  | _ => none

def expectChar (c : Char) : List Char → Option (List Char)
  | x :: rest => if x = c then some rest else none
  | [] => none

/-! ### Calendar arithmetic (Go `time` package instants) -/

def isLeapYear (y : Nat) : Bool := y % 4 == 0 && (y % 100 != 0 || y % 400 == 0)

def daysInMonth (y m : Nat) : Nat :=
  if m = 2 then (if isLeapYear y then 29 else 28)
  else if m = 4 ∨ m = 6 ∨ m = 9 ∨ m = 11 then 30
  else 31

/-- Days since 1970-01-01 of the civil date `y-m-d` (proleptic Gregorian). -/
def daysFromCivil (y m d : Nat) : Int :=
  let y' : Int := if m ≤ 2 then (y : Int) - 1 else (y : Int)
  let era : Int := (if 0 ≤ y' then y' else y' - 399) / 400
  let yoe : Int := y' - era * 400
  let mp : Int := if m ≤ 2 then (m : Int) + 9 else (m : Int) - 3
  let doy : Int := (153 * mp + 2) / 5 + (d : Int) - 1
  let doe : Int := yoe * 365 + yoe / 4 - yoe / 100 + doy
  era * 146097 + doe - 719468

/-- Instant (ns since epoch) of a date-time with a zone offset in seconds. -/
def unixNanos (y m d h mi s nanos : Nat) (offset : Int) : Int :=
  (daysFromCivil y m d * 86400 + ((h * 3600 + mi * 60 + s : Nat) : Int) - offset)
      * 1000000000 + (nanos : Int)

/-! ### Date parsing (`time.Parse`) -/

/-- Parse `YYYY-MM-DD` with range validation, returning the remaining input. -/
def parseYMD (cs : List Char) : Option (Nat × Nat × Nat × List Char) := do
  let (y, cs1) ← take4 cs
  let cs2 ← expectChar '-' cs1
  let (m, cs3) ← take2 cs2
  let cs4 ← expectChar '-' cs3
  let (d, cs5) ← take2 cs4
  if 1 ≤ m ∧ m ≤ 12 ∧ 1 ≤ d ∧ d ≤ daysInMonth y m then
    pure (y, m, d, cs5)
  else none

/-- Parse `HH:MM:SS` with range validation, returning the remaining input. -/
def parseHMS (cs : List Char) : Option (Nat × Nat × Nat × List Char) := do
  let (h, cs1) ← take2 cs
  let cs2 ← expectChar ':' cs1
  let (mi, cs3) ← take2 cs2
  let cs4 ← expectChar ':' cs3
  let (s, cs5) ← take2 cs4
  if h ≤ 23 ∧ mi ≤ 59 ∧ s ≤ 59 then pure (h, mi, s, cs5) else none

/-- Optional fractional seconds: `.` or `,` followed by at least one digit.
Go keeps the first nine digits as nanoseconds and discards the rest. -/
def parseFrac (cs : List Char) : Nat × List Char :=
  match cs with
  | sep :: c :: rest =>
    if (sep = '.' ∨ sep = ',') ∧ digit? c then
      let (ds, rest') := List.span digit? (c :: rest)
      (natOfDigits (ds.take 9) * 10 ^ (9 - min ds.length 9), rest')
    else (0, cs)
  | _ => (0, cs)

/-- Zone suffix of RFC3339: `Z` or `±HH:MM`; offset in seconds. -/
def parseZone (cs : List Char) : Option (Int × List Char) :=
  match cs with
  | 'Z' :: rest => some (0, rest)
  | sgn :: rest =>
    if sgn = '+' ∨ sgn = '-' then do
      let (zh, cs1) ← take2 rest
      let cs2 ← expectChar ':' cs1
      let (zm, cs3) ← take2 cs2
      if zh ≤ 23 ∧ zm ≤ 59 then
        let off : Int := (zh * 3600 + zm * 60 : Nat)
        pure (if sgn = '-' then -off else off, cs3)
      else none
    else none
  | [] => none

/-- `time.Parse(time.RFC3339, s)` as an instant in ns since the epoch. -/
def parseRFC3339 (s : String) : Option Int := do
  let (y, m, d, cs1) ← parseYMD s.data
  let cs2 ← expectChar 'T' cs1
  let (h, mi, sec, cs3) ← parseHMS cs2
  let (nanos, cs4) := parseFrac cs3
  let (off, cs5) ← parseZone cs4
  if cs5 = [] then pure (unixNanos y m d h mi sec nanos off) else none

/-- `time.Parse("2006-01-02T15:04:05", s)`: no zone, interpreted as UTC. -/
def parseNoZone (s : String) : Option Int := do
  let (y, m, d, cs1) ← parseYMD s.data
  let cs2 ← expectChar 'T' cs1
  let (h, mi, sec, cs3) ← parseHMS cs2
  let (nanos, cs4) := parseFrac cs3
  if cs4 = [] then pure (unixNanos y m d h mi sec nanos 0) else none

/-- The transaction-date parse of main.go lines 125-133: RFC3339 first,
falling back to the timezone-less layout. -/
def parseTransactionDate (s : String) : Option Int :=
  match parseRFC3339 s with
  | some t => some t
  | none => parseNoZone s

/-- `time.Parse("2006-01-02", s)` for the end date: start of day, UTC. -/
def parseDateOnly (s : String) : Option Int := do
  let (y, m, d, cs1) ← parseYMD s.data
  if cs1 = [] then pure (unixNanos y m d 0 0 0 0 0) else none

/-! ### Amount normalization (main.go lines 155-159) -/

/-- The four `strings.ReplaceAll` calls remove every `$`, `,`, `+`, `-`. -/
def stripAmountChars (s : String) : List Char :=
  s.data.filter (fun c => !(c = '$' || c = ',' || c = '+' || c = '-'))

/-- `unicode.IsSpace` over the Latin-1 range (the spaces `strings.TrimSpace`
can meet in these inputs). -/
def isSpaceGo (c : Char) : Bool :=
  c = ' ' || c = '\t' || c = '\n' || c = '\x0b' || c = '\x0c' || c = '\r' ||
    c = '\u0085' || c = '\u00A0'

def trimSpace (cs : List Char) : List Char :=
  ((cs.dropWhile isSpaceGo).reverse.dropWhile isSpaceGo).reverse

/-! ### Exact model of `strconv.ParseFloat(s, 32)` and
`strconv.FormatFloat(x, 'f', 2, 64)`

A finite binary32 value is represented exactly as `(-1)^neg * mant * 2^exp2`
with `mant exp2` unnormalized but exact.  All rounding is done with integer
arithmetic.  -/

/-- An exactly represented IEEE-754 binary value. -/
structure FVal where
  neg : Bool
  mant : Nat
  exp2 : Int
deriving DecidableEq, Repr

/-- Round `a / b` to the nearest integer, ties to even (`b > 0`). -/
def rne (a b : Nat) : Nat :=
  let q := a / b
  let r := a % b
  if 2 * r < b then q
  else if b < 2 * r then q + 1
  else if q % 2 = 0 then q else q + 1

/-- Floor of log₂ with fuel (`log2F n n` is exact for `n ≥ 1`). -/
def log2F : Nat → Nat → Nat
  | 0, _ => 0
  | f + 1, n => if n ≤ 1 then 0 else log2F f (n / 2) + 1

def natLog2 (n : Nat) : Nat := log2F n n

/-- `num / den < 2 ^ i` by cross multiplication. -/
def ltPow2 (num den : Nat) (i : Int) : Bool :=
  if 0 ≤ i then num < 2 ^ i.toNat * den else num * 2 ^ (-i).toNat < den

/-- `2 ^ i ≤ num / den` by cross multiplication. -/
def lePow2 (num den : Nat) (i : Int) : Bool :=
  if 0 ≤ i then 2 ^ i.toNat * den ≤ num else den ≤ num * 2 ^ (-i).toNat

/-- Floor of log₂ of the positive rational `num / den`. -/
def flog2 (num den : Nat) : Int :=
  let a : Int := (natLog2 num : Int) - (natLog2 den : Int)
  if ltPow2 num den a then a - 1 else if lePow2 num den (a + 1) then a + 1 else a

/-- Round the rational `(-1)^neg * num / den` to the nearest binary32 value
(ties to even); `none` on overflow (Go then reports `ErrRange`, which the
caller treats as a parse failure). -/
def toFloat32 (neg : Bool) (num den : Nat) : Option FVal :=
  if num = 0 then some ⟨neg, 0, 0⟩
  else
    let s : Int := max (flog2 num den - 23) (-149)
    let m := if 0 ≤ s then rne num (den * 2 ^ s.toNat) else rne (num * 2 ^ (-s).toNat) den
    if 0 ≤ s ∧ 2 ^ 128 ≤ m * 2 ^ s.toNat then none else some ⟨neg, m, s⟩

/-- Go decimal floating-point literal syntax (mantissa with optional dot,
optional decimal exponent), as `(neg, num, den)` with value `± num / den`.
Hexadecimal floats, underscores and the non-finite specials are outside the
model; the classifier only meets plain decimal strings. -/
def parseDecimal (cs : List Char) : Option (Bool × Nat × Nat) :=
  let p := match cs with
    | '-' :: t => (true, t)
    | '+' :: t => (false, t)
    | t => (false, t)
  let neg := p.1
  let q1 := List.span digit? p.2
  let ds1 := q1.1
  let q2 := match q1.2 with
    | '.' :: t => List.span digit? t
    | _ => ([], q1.2)
  let ds2 := q2.1
  if ds1.isEmpty && ds2.isEmpty then none
  else
    let m := natOfDigits (ds1 ++ ds2)
    let k := ds2.length
    match q2.2 with
    | [] => some (neg, m, 10 ^ k)
    | e :: t =>
      if e = 'e' ∨ e = 'E' then
        let pe := match t with
          | '-' :: t' => (true, t')
          | '+' :: t' => (false, t')
          | t' => (false, t')
        let q3 := List.span digit? pe.2
        if q3.1.isEmpty || !q3.2.isEmpty then none
        else
          let ev := natOfDigits q3.1
          if pe.1 then some (neg, m, 10 ^ (k + ev))
          else if ev ≤ k then some (neg, m, 10 ^ (k - ev))
          else some (neg, m * 10 ^ (ev - k), 1)
      else none

/-- `strconv.ParseFloat(s, 32)`: `none` models `err != nil`. -/
def parseFloat32 (cs : List Char) : Option FVal :=
  (parseDecimal cs).bind fun p => toFloat32 p.1 p.2.1 p.2.2

/-- `strconv.FormatFloat(x, 'f', 2, 64)` on the exactly represented value:
the magnitude times 100 is rounded to an integer (ties to even) and printed
with two fractional digits; the sign bit prints `-` (also for negative
zero, as in Go). -/
def formatF2 (v : FVal) : String :=
  let n := if 0 ≤ v.exp2 then v.mant * 100 * 2 ^ v.exp2.toNat
           else rne (v.mant * 100) (2 ^ (-v.exp2).toNat)
  (if v.neg then "-" else "") ++ toString (n / 100) ++ "." ++
    (if n % 100 < 10 then "0" else "") ++ toString (n % 100)

/-- `amount = -1 * amount`: the IEEE negation flips the sign bit. -/
def negF (v : FVal) : FVal := ⟨!v.neg, v.mant, v.exp2⟩

/-- The zero the classifier assigns to transfers and unrecognized types
(`var amount float64`). -/
def zeroF : FVal := ⟨false, 0, 0⟩

/-! ### Strings helpers (`strings.ToLower`, `strings.Contains`) -/

/-- `strings.ToLower` (ASCII range; the needle "transfer" is ASCII). -/
def toLowerStr (s : String) : String := ⟨s.data.map Char.toLower⟩

/-- `strings.Contains hay needle` on character lists. -/
def containsSubstring (needle : List Char) : List Char → Bool
  | [] => needle.isEmpty
  | c :: t => needle.isPrefixOf (c :: t) || containsSubstring needle t

/-- `strings.Contains s "-"` for the single-character needle. -/
def containsChar (s : String) (c : Char) : Bool := s.data.contains c

/-! ### Data model (main.go `Transaction`, `ResponseData`) -/

structure Note where
  name : String
  content : String
deriving DecidableEq, Repr

structure Party where
  displayName : String
  username : String
deriving DecidableEq, Repr

structure Title where
  subType : String
  receiver : Party
  sender : Party
deriving DecidableEq, Repr

structure Transaction where
  id : String
  amount : String
  date : String
  type : String
  note : Note
  title : Title
deriving DecidableEq, Repr

structure ResponseData where
  nextId : String
  stories : List Transaction
deriving DecidableEq, Repr

/-! ### Transaction classification (main.go lines 145-193) -/

/-- Amount normalization and parse for payments (lines 154-167): strip
`$`, `,`, `+`, `-`, trim spaces, `ParseFloat(_, 32)`, then negate when the
original string contains a `-`. -/
def parseAmountSigned (amount : String) : Option FVal :=
  (parseFloat32 (trimSpace (stripAmountChars amount))).map fun a =>
    if containsChar amount '-' then negF a else a

/-- The classification of one transaction into the CSV record
`[amount, date, type, note]` (lines 145-189); `none` models the `continue`
taken when a payment's amount fails to parse. -/
def classifyStory (story : Transaction) : Option (List String) :=
  if containsSubstring "transfer".data (toLowerStr story.type).data then
    some [formatF2 zeroF, story.date, "Transfer",
      "Transfer " ++ story.note.name ++ " | " ++ story.amount]
  else if story.type = "payment" then
    match parseAmountSigned story.amount with
    | none => none
    | some amount =>
      let note :=
        if story.title.sender.displayName = "you" then
          let receiver :=
            if story.title.receiver.displayName = "" then story.title.receiver.username
            else story.title.receiver.displayName
          "To " ++ receiver ++ " | " ++ story.note.content
        else
          let sender :=
            if story.title.sender.displayName = "" then story.title.sender.username
            else story.title.sender.displayName
          "From " ++ sender ++ " | " ++ story.note.content
      some [formatF2 amount, story.date, "Payment", note]
  else
    some [formatF2 zeroF, story.date, "", ""]

/-! ### Per-transaction step of the loop body (main.go lines 122-193) -/

inductive StoryResult where
  | stop
  | skip (warning : String)
  | emit (record : List String)
deriving DecidableEq, Repr

/-- One iteration of the inner loop: parse the date (warn and skip on
failure), stop the whole pipeline when the date is before the end date,
otherwise classify (warn and skip when a payment amount fails to parse)
and emit the CSV record. -/
def processStory (endDateParsed : Int) (story : Transaction) : StoryResult :=
  match parseTransactionDate story.date with
  | none => .skip "Failed to parse transaction date"
  | some transactionDate =>
    if transactionDate < endDateParsed then .stop
    else
      match classifyStory story with
      | none => .skip "Failed to parse amount"
      | some record => .emit record

/-- The inner loop over one page's stories: emitted records, warnings
logged, and whether the end date was reached (which abandons the rest of
the page). -/
def processStories (e : Int) : List Transaction → List (List String) × List String × Bool
  | [] => ([], [], false)
  | story :: rest =>
    match processStory e story with
    | .stop => ([], [], true)
    | .skip w =>
      let r := processStories e rest
      (r.1, w :: r.2.1, r.2.2)
    | .emit row =>
      let r := processStories e rest
      (row :: r.1, r.2.1, r.2.2)

/-! ### The fetch loop and the process's two output streams -/

/-- One answer of the network to one iteration's fetch: a transport-level
failure of `client.Do` / `io.ReadAll`, or a response with its HTTP status
code and its body (already decoded; `none` models a body
`json.Unmarshal` rejects). -/
inductive FetchResult where
  | transport (err : String)
  | response (statusCode : Nat) (body : Option ResponseData)
deriving DecidableEq, Repr

/-- One item written to standard output: a CSV record from the `csv.Writer`
or a plain line from `fmt.Println`. -/
inductive OutItem where
  | row (r : List String)
  | line (s : String)
deriving DecidableEq, Repr

/-- Observable outcome of a run: items on standard output, lines on
standard error (the `log` package's stream), and whether the process
exited zero (`log.Fatalf` exits non-zero). -/
structure Output where
  stdout : List OutItem
  stderr : List String
  exitZero : Bool
deriving DecidableEq, Repr

/-- The fetch loop of main.go lines 76-202, driven by the list of answers
the network would give to successive requests.  An exhausted answer list
models the end of the scenario. -/
def driveLoop (e : Int) : List FetchResult → Output
  | [] => ⟨[], [], true⟩
  | .transport _ :: _ => ⟨[], ["Failed to make HTTP request"], false⟩
  | .response statusCode body :: rest =>
    if statusCode ≠ 200 then ⟨[], ["Failed to fetch transactions"], false⟩
    else
      match body with
      | none => ⟨[], ["Failed to parse JSON response"], false⟩
      | some data =>
        let r := processStories e data.stories
        if r.2.2 then
          ⟨r.1.map OutItem.row ++ [.line "Reached end date, stopping."], r.2.1, true⟩
        else if data.nextId = "" then
          ⟨r.1.map OutItem.row ++ [.line "No more transactions to fetch."], r.2.1, true⟩
        else
          let o := driveLoop e rest
          ⟨r.1.map OutItem.row ++ o.stdout, r.2.1 ++ o.stderr, o.exitZero⟩

/-- How many pages the loop requests before terminating. -/
def pagesFetched (e : Int) : List FetchResult → Nat
  | [] => 0
  | .transport _ :: _ => 1
  | .response statusCode body :: rest =>
    if statusCode ≠ 200 then 1
    else
      match body with
      | none => 1
      | some data =>
        if (processStories e data.stories).2.2 then 1
        else if data.nextId = "" then 1
        else 1 + pagesFetched e rest

def csvHeaders : List String := ["Amount", "Date", "Note Name", "Note Date"]

/-- The whole run (after argument parsing): parse the end date (fatal on
failure), write the CSV header, run the fetch loop. -/
def mainRun (endDate : String) (fetches : List FetchResult) : Output :=
  match parseDateOnly endDate with
  | none => ⟨[], ["Failed to parse end date"], false⟩
  | some e =>
    let o := driveLoop e fetches
    ⟨.row csvHeaders :: o.stdout, o.stderr, o.exitZero⟩

/-! ### Derived notions used by the theorems -/

/-- A successful page response (status 200, well-formed body). -/
def goodFetch (p : ResponseData) : FetchResult := .response 200 (some p)

/-- All stories of a page sequence in arrival order. -/
def storiesOf (ps : List ResponseData) : List Transaction :=
  (ps.map (fun p => p.stories)).flatten

/-- The CSV record constructors of stdout items. -/
def outRow? : OutItem → Option (List String)
  | .row r => some r
  | .line _ => none

/-- The CSV records among the stdout items. -/
def stdoutRows (o : Output) : List (List String) :=
  o.stdout.filterMap outRow?

/-- The record the loop body emits for a story, if any. -/
def emittedRow (e : Int) (story : Transaction) : Option (List String) :=
  match processStory e story with
  | .emit r => some r
  | _ => none

/-- Story `b` is dated no later than story `a` (vacuous when either date
fails to parse). -/
def dateLE (b a : Transaction) : Bool :=
  match parseTransactionDate a.date, parseTransactionDate b.date with
  | some da, some db => db ≤ da
  | _, _ => true

/-- Stories are in descending date order (on those whose dates parse). -/
def allDesc : List Transaction → Bool
  | [] => true
  | a :: rest => rest.all (fun b => dateLE b a) && allDesc rest

/-- Every line the program can write to standard error. -/
def diagnosticMessages : List String :=
  ["Failed to parse end date", "Failed to make HTTP request",
   "Failed to fetch transactions", "Failed to parse JSON response",
   "Failed to parse transaction date", "Failed to parse amount"]

/-! ### Concrete fixtures -/

/-- Instant of 2024-01-01T00:00:00Z (start of day). -/
def endDate2024 : Int := 1704067200000000000

/-- Instant of 2024-06-01T00:00:00Z. -/
def june2024 : Int := 1717200000000000000

def txTransferScenario : Transaction :=
  ⟨"t1", "$100.00", "2024-06-01T00:00:00Z", "p2p_transfer", ⟨"Bank", ""⟩,
    ⟨"standardTransfer", ⟨"", ""⟩, ⟨"", ""⟩⟩⟩

def txPaymentScenario : Transaction :=
  ⟨"t2", "-$5.00", "2024-06-01T00:00:00Z", "payment", ⟨"", "lunch"⟩,
    ⟨"p2p", ⟨"", "janedoe"⟩, ⟨"you", ""⟩⟩⟩

def txPayNeg : Transaction :=
  ⟨"t3", "-$1,234.56", "2024-06-01T00:00:00Z", "payment", ⟨"", "rent"⟩,
    ⟨"p2p", ⟨"Jane", ""⟩, ⟨"you", ""⟩⟩⟩

def txPayPos : Transaction :=
  ⟨"t4", "+$20.00", "2024-06-01T00:00:00Z", "payment", ⟨"", "gift"⟩,
    ⟨"p2p", ⟨"", ""⟩, ⟨"Bob", ""⟩⟩⟩

def txBigAmount : Transaction :=
  ⟨"t5", "$123456789.12", "2024-06-01T00:00:00Z", "payment", ⟨"", "big"⟩,
    ⟨"p2p", ⟨"", ""⟩, ⟨"Ann", ""⟩⟩⟩

def txUnknownType : Transaction :=
  ⟨"t6", "$1.00", "2024-06-01T00:00:00Z", "refund", ⟨"", ""⟩,
    ⟨"", ⟨"", ""⟩, ⟨"", ""⟩⟩⟩

def txBadAmountAtCutoff : Transaction :=
  ⟨"t7", "abc", "2024-01-01T00:00:00Z", "payment", ⟨"", ""⟩,
    ⟨"p2p", ⟨"", ""⟩, ⟨"you", ""⟩⟩⟩

def txTransferAtCutoff : Transaction :=
  ⟨"t8", "$7.00", "2024-01-01T00:00:00Z", "standardTransfer", ⟨"Bank", ""⟩,
    ⟨"standardTransfer", ⟨"", ""⟩, ⟨"", ""⟩⟩⟩

def txBadAmountJune : Transaction :=
  ⟨"t9", "abc", "2024-06-01T00:00:00Z", "payment", ⟨"", ""⟩,
    ⟨"p2p", ⟨"", ""⟩, ⟨"you", ""⟩⟩⟩

def txOldDate : Transaction :=
  ⟨"t10", "$1.00", "2023-06-01T00:00:00Z", "payment", ⟨"", ""⟩,
    ⟨"p2p", ⟨"", ""⟩, ⟨"you", ""⟩⟩⟩

def txBadDate : Transaction :=
  ⟨"t11", "$1.00", "notadate", "payment", ⟨"", ""⟩,
    ⟨"p2p", ⟨"", ""⟩, ⟨"you", ""⟩⟩⟩

def txOld2022 : Transaction :=
  ⟨"t12", "$3.00", "2022-01-01T00:00:00Z", "p2p_transfer", ⟨"Bank", ""⟩,
    ⟨"standardTransfer", ⟨"", ""⟩, ⟨"", ""⟩⟩⟩

/-! ### Claim theorems -/

/-- C5: a transaction whose type contains "transfer" case-insensitively is
classified with type "Transfer", amount 0 (formatted "0.00", the amount
string never being numerically parsed), and note
`"Transfer " ++ note.name ++ " | " ++ amount-string-as-received`. -/
theorem c5_transfer_classification (story : Transaction)
    (h : containsSubstring "transfer".data (toLowerStr story.type).data = true) :
    classifyStory story =
      some ["0.00", story.date, "Transfer",
        "Transfer " ++ story.note.name ++ " | " ++ story.amount] := by
  have hz : formatF2 zeroF = "0.00" := by decide
  simp [classifyStory, h, hz]

/-- C5 witness: type "p2p_transfer", note.name "Bank", amount "$100.00"
gives amount 0.00, type Transfer, note "Transfer Bank | $100.00". -/
theorem c5_transfer_witness :
    containsSubstring "transfer".data (toLowerStr txTransferScenario.type).data = true ∧
    classifyStory txTransferScenario =
      some ["0.00", "2024-06-01T00:00:00Z", "Transfer", "Transfer Bank | $100.00"] :=
  ⟨by decide, c5_transfer_classification txTransferScenario (by decide)⟩

/-- C6: payment amounts are normalized by removing `$`, `,`, `+`, `-`,
trimming spaces, parsing the remainder at 32-bit precision, and negating
when the original string contains `-`; "-$1,234.56" yields the value
whose two-decimal formatting is "-1234.56" and "+$20.00" yields "20.00",
and the classifier emits exactly those amount fields. -/
theorem c6_amount_roundtrip :
    parseAmountSigned "-$1,234.56" = some ⟨true, 10113516, -13⟩ ∧
    formatF2 ⟨true, 10113516, -13⟩ = "-1234.56" ∧
    parseAmountSigned "+$20.00" = some ⟨false, 10485760, -19⟩ ∧
    formatF2 ⟨false, 10485760, -19⟩ = "20.00" ∧
    classifyStory txPayNeg =
      some ["-1234.56", "2024-06-01T00:00:00Z", "Payment", "To Jane | rent"] ∧
    classifyStory txPayPos =
      some ["20.00", "2024-06-01T00:00:00Z", "Payment", "From Bob | gift"] := by
  refine ⟨by decide, by decide, by decide, by decide, by decide, by decide⟩

/-- C7: for any payment record the classifier emits, the note is
`"To " ++ counterparty ++ " | " ++ note.content` when
`title.sender.displayName = "you"` (counterparty being the receiver's
display name, or its username when the display name is empty), and
`"From " ++ counterparty ++ " | " ++ note.content` analogously from the
sender fields otherwise. -/
theorem c7_payment_note_direction (story : Transaction) (r : List String)
    (hT : story.type = "payment") (hC : classifyStory story = some r) :
    ∃ a, r = [a, story.date, "Payment",
      if story.title.sender.displayName = "you" then
        "To " ++ (if story.title.receiver.displayName = "" then
            story.title.receiver.username
          else story.title.receiver.displayName) ++ " | " ++ story.note.content
      else
        "From " ++ (if story.title.sender.displayName = "" then
            story.title.sender.username
          else story.title.sender.displayName) ++ " | " ++ story.note.content] := by
  have hnt : containsSubstring "transfer".data (toLowerStr "payment").data = false := by
    decide
  simp only [classifyStory, hT, hnt, Bool.false_eq_true, if_false, if_true,
    reduceIte] at hC
  cases hA : parseAmountSigned story.amount with
  | none => rw [hA] at hC; simp at hC
  | some amt =>
    rw [hA] at hC
    simp only [Option.some.injEq] at hC
    exact ⟨formatF2 amt, hC.symm⟩

/-- C7 witness: scenario 2 — payment "-$5.00" from "you" to the receiver
with empty display name and username "janedoe", note content "lunch". -/
theorem c7_payment_witness :
    txPaymentScenario.type = "payment" ∧
    classifyStory txPaymentScenario =
      some ["-5.00", "2024-06-01T00:00:00Z", "Payment", "To janedoe | lunch"] ∧
    (∃ a, ["-5.00", "2024-06-01T00:00:00Z", "Payment", "To janedoe | lunch"]
        = [a, txPaymentScenario.date, "Payment",
          if txPaymentScenario.title.sender.displayName = "you" then
            "To " ++ (if txPaymentScenario.title.receiver.displayName = "" then
                txPaymentScenario.title.receiver.username
              else txPaymentScenario.title.receiver.displayName) ++ " | " ++
                txPaymentScenario.note.content
          else
            "From " ++ (if txPaymentScenario.title.sender.displayName = "" then
                txPaymentScenario.title.sender.username
              else txPaymentScenario.title.sender.displayName) ++ " | " ++
                txPaymentScenario.note.content]) :=
  ⟨by decide, by decide,
    c7_payment_note_direction txPaymentScenario
      ["-5.00", "2024-06-01T00:00:00Z", "Payment", "To janedoe | lunch"]
      (by decide) (by decide)⟩

/-- C8: a transaction whose type neither contains "transfer"
case-insensitively nor equals "payment" still produces a record (no error):
empty type, empty note, amount "0.00". -/
theorem c8_unrecognized_type (story : Transaction)
    (h1 : containsSubstring "transfer".data (toLowerStr story.type).data = false)
    (h2 : story.type ≠ "payment") :
    classifyStory story = some ["0.00", story.date, "", ""] := by
  have hz : formatF2 zeroF = "0.00" := by decide
  simp [classifyStory, h1, h2, hz]

/-- C8 witness: type "refund" falls through to the permissive default. -/
theorem c8_unrecognized_witness :
    containsSubstring "transfer".data (toLowerStr txUnknownType.type).data = false ∧
    txUnknownType.type ≠ "payment" ∧
    classifyStory txUnknownType = some ["0.00", "2024-06-01T00:00:00Z", "", ""] :=
  ⟨by decide, by decide, c8_unrecognized_type txUnknownType (by decide) (by decide)⟩

/-- C9: a transaction whose date parses under neither format is skipped
(no record, one warning logged) and processing continues with the rest of
the page: rows and the stop flag are those of the remaining transactions. -/
theorem c9_unparseable_date_skips (e : Int) (story : Transaction)
    (rest : List Transaction)
    (h : parseTransactionDate story.date = none) :
    (processStories e (story :: rest)).1 = (processStories e rest).1 ∧
    (processStories e (story :: rest)).2.1 =
      "Failed to parse transaction date" :: (processStories e rest).2.1 ∧
    (processStories e (story :: rest)).2.2 = (processStories e rest).2.2 := by
  simp [processStories, processStory, h]

/-- C9 witness: an unparseable date amid a valid transaction — the record
is skipped, the valid one still processed. -/
theorem c9_unparseable_witness :
    parseTransactionDate txBadDate.date = none ∧
    ((processStories endDate2024 [txBadDate, txTransferScenario]).1 =
        (processStories endDate2024 [txTransferScenario]).1 ∧
      (processStories endDate2024 [txBadDate, txTransferScenario]).2.1 =
        "Failed to parse transaction date" ::
          (processStories endDate2024 [txTransferScenario]).2.1 ∧
      (processStories endDate2024 [txBadDate, txTransferScenario]).2.2 =
        (processStories endDate2024 [txTransferScenario]).2.2) :=
  ⟨by decide, c9_unparseable_date_skips endDate2024 txBadDate [txTransferScenario] (by decide)⟩

/-- C10: the amount "$123456789.12" is parsed at 32-bit precision to the
value 15432099·2³ = 123456792, whose two-decimal formatting
"123456792.00" differs from the exact decimal value of the input, and the
classifier emits exactly that amount field. -/
theorem c10_float32_precision_loss :
    parseAmountSigned "$123456789.12" = some ⟨false, 15432099, 3⟩ ∧
    (15432099 * 2 ^ 3 : Nat) * 100 ≠ 12345678912 ∧
    formatF2 ⟨false, 15432099, 3⟩ = "123456792.00" ∧
    classifyStory txBigAmount =
      some ["123456792.00", "2024-06-01T00:00:00Z", "Payment", "From Ann | big"] := by
  refine ⟨by decide, by decide, by decide, by decide⟩

/-- C4 (amended): a transaction whose parsed date equals the cutoff
instant exactly is not treated as before the cutoff (the comparison is a
strict `<`), does not stop the pipeline, and whenever its classification
succeeds the loop emits that record. -/
theorem c4_cutoff_boundary (e : Int) (story : Transaction)
    (hD : parseTransactionDate story.date = some e) :
    processStory e story ≠ .stop ∧
    (∀ r, classifyStory story = some r → processStory e story = .emit r) := by
  constructor
  · cases hc : classifyStory story <;>
      simp [processStory, hD, lt_irrefl, hc]
  · intro r hr
    simp [processStory, hD, lt_irrefl, hr]

/-- C4 counterexample: a payment dated exactly at the cutoff whose amount
string is unparseable is skipped — no row is emitted for it, contradicting
the claim's unconditional "a row is emitted". -/
theorem c4_counterexample :
    parseDateOnly "2024-01-01" = some endDate2024 ∧
    parseTransactionDate txBadAmountAtCutoff.date = some endDate2024 ∧
    processStory endDate2024 txBadAmountAtCutoff = .skip "Failed to parse amount" ∧
    ¬∃ r, processStory endDate2024 txBadAmountAtCutoff = .emit r := by
  refine ⟨by decide, by decide, by decide, ?_⟩
  rintro ⟨r, hr⟩
  rw [show processStory endDate2024 txBadAmountAtCutoff
      = .skip "Failed to parse amount" from by decide] at hr
  exact StoryResult.noConfusion hr

/-! ### Driver lemmas for C1 -/

theorem filterMap_eq_nil_of_none {α β : Type} (f : α → Option β) (l : List α)
    (h : ∀ a ∈ l, f a = none) : l.filterMap f = [] := by
  induction l with
  | nil => rfl
  | cons a t ih =>
    rw [List.filterMap_cons, h a (List.mem_cons_self a t)]
    exact ih fun x hx => h x (List.mem_cons_of_mem a hx)

theorem processStory_stop_iff (e : Int) (story : Transaction) :
    processStory e story = .stop ↔
      ∃ d, parseTransactionDate story.date = some d ∧ d < e := by
  cases hp : parseTransactionDate story.date with
  | none => simp [processStory, hp]
  | some d =>
    by_cases hd : d < e
    · simp [processStory, hp, hd]
    · cases hc : classifyStory story with
      | none => simp [processStory, hp, hd, hc]
      | some r => simp [processStory, hp, hd, hc]

theorem emittedRow_none_of_stop {e : Int} {story : Transaction} {d : Int}
    (hp : parseTransactionDate story.date = some d) (hd : d < e) :
    emittedRow e story = none := by
  simp [emittedRow, processStory, hp, hd]

theorem emittedRow_none_of_noparse {e : Int} {story : Transaction}
    (hp : parseTransactionDate story.date = none) :
    emittedRow e story = none := by
  simp [emittedRow, processStory, hp]

/-- Once some story's date is strictly before the end date, every story
dated no later than it (in particular everything after it in a descending
sequence) emits nothing. -/
theorem emittedRow_none_after {e : Int} {a b : Transaction} {d : Int}
    (hpa : parseTransactionDate a.date = some d) (hd : d < e)
    (hle : dateLE b a = true) : emittedRow e b = none := by
  cases hpb : parseTransactionDate b.date with
  | none => exact emittedRow_none_of_noparse hpb
  | some db =>
    have hdb : db ≤ d := by
      simp only [dateLE, hpa, hpb] at hle
      exact of_decide_eq_true hle
    exact emittedRow_none_of_stop hpb (lt_of_le_of_lt hdb hd)

theorem allDesc_cons {a : Transaction} {rest : List Transaction}
    (h : allDesc (a :: rest) = true) :
    (∀ b ∈ rest, dateLE b a = true) ∧ allDesc rest = true := by
  simp only [allDesc, Bool.and_eq_true, List.all_eq_true] at h
  exact h

theorem allDesc_append {l1 l2 : List Transaction}
    (h : allDesc (l1 ++ l2) = true) :
    allDesc l1 = true ∧ allDesc l2 = true ∧
      ∀ a ∈ l1, ∀ b ∈ l2, dateLE b a = true := by
  induction l1 with
  | nil => exact ⟨rfl, h, by simp⟩
  | cons a t ih =>
    rw [List.cons_append] at h
    obtain ⟨hall, hrest⟩ := allDesc_cons h
    obtain ⟨h1, h2, h3⟩ := ih hrest
    refine ⟨?_, h2, ?_⟩
    · simp only [allDesc, Bool.and_eq_true, List.all_eq_true]
      exact ⟨fun b hb => hall b (List.mem_append_left _ hb), h1⟩
    · intro x hx b hb
      rcases List.mem_cons.mp hx with rfl | hx'
      · exact hall b (List.mem_append_right _ hb)
      · exact h3 x hx' b hb

/-- On a descending page the inner loop emits exactly the records of the
stories the loop body classifies, all of which are dated no earlier than
the end date. -/
theorem processStories_rows (e : Int) (l : List Transaction)
    (h : allDesc l = true) :
    (processStories e l).1 = l.filterMap (emittedRow e) := by
  induction l with
  | nil => simp [processStories]
  | cons story rest ih =>
    obtain ⟨hall, hrest⟩ := allDesc_cons h
    cases hps : processStory e story with
    | stop =>
      obtain ⟨d, hp, hd⟩ := (processStory_stop_iff e story).mp hps
      have h1 : emittedRow e story = none := emittedRow_none_of_stop hp hd
      have h2 : List.filterMap (emittedRow e) rest = [] :=
        filterMap_eq_nil_of_none _ _ fun b hb =>
          emittedRow_none_after hp hd (hall b hb)
      simp [processStories, hps, List.filterMap_cons, h1, h2]
    | skip w =>
      have h1 : emittedRow e story = none := by simp [emittedRow, hps]
      simp [processStories, hps, List.filterMap_cons, h1, ih hrest]
    | emit row =>
      have h1 : emittedRow e story = some row := by simp [emittedRow, hps]
      simp [processStories, hps, List.filterMap_cons, h1, ih hrest]

theorem processStories_stop_exists (e : Int) (l : List Transaction)
    (h : (processStories e l).2.2 = true) :
    ∃ s ∈ l, ∃ d, parseTransactionDate s.date = some d ∧ d < e := by
  induction l with
  | nil => simp [processStories] at h
  | cons story rest ih =>
    cases hps : processStory e story with
    | stop =>
      obtain ⟨d, hp, hd⟩ := (processStory_stop_iff e story).mp hps
      exact ⟨story, List.mem_cons_self _ _, d, hp, hd⟩
    | skip w =>
      simp only [processStories, hps] at h
      obtain ⟨s, hs, hd⟩ := ih h
      exact ⟨s, List.mem_cons_of_mem _ hs, hd⟩
    | emit row =>
      simp only [processStories, hps] at h
      obtain ⟨s, hs, hd⟩ := ih h
      exact ⟨s, List.mem_cons_of_mem _ hs, hd⟩

theorem filterMap_outRow_map_row (l : List (List String)) :
    (l.map OutItem.row).filterMap outRow? = l := by
  induction l with
  | nil => rfl
  | cons r t ih => simp [outRow?, List.filterMap_cons, ih]

theorem filterMap_outRow_comp (l : List (List String)) :
    List.filterMap (outRow? ∘ OutItem.row) l = l := by
  induction l with
  | nil => rfl
  | cons r t ih => simp [outRow?, List.filterMap_cons, Function.comp, ih]

theorem storiesOf_cons (p : ResponseData) (ps : List ResponseData) :
    storiesOf (p :: ps) = p.stories ++ storiesOf ps := by
  simp [storiesOf]

/-- Rows of the whole run: under the descending-order and cursor-chaining
hypotheses, the loop emits exactly the classified records of the stories
dated no earlier than the end date. -/
theorem driveLoop_rows (e : Int) (ps : List ResponseData)
    (hdesc : allDesc (storiesOf ps) = true)
    (hchain : ps.dropLast.all (fun p => p.nextId != "") = true) :
    stdoutRows (driveLoop e (ps.map goodFetch)) =
      (storiesOf ps).filterMap (emittedRow e) := by
  revert hdesc hchain
  induction ps with
  | nil =>
    intro hdesc hchain
    simp [storiesOf, driveLoop, stdoutRows]
  | cons p rest ih =>
    intro hdesc hchain
    rw [storiesOf_cons] at hdesc
    obtain ⟨hd1, hd2, hcross⟩ := allDesc_append hdesc
    have hrows : (processStories e p.stories).1 = p.stories.filterMap (emittedRow e) :=
      processStories_rows e p.stories hd1
    rw [storiesOf_cons, List.filterMap_append]
    simp only [List.map_cons, goodFetch, driveLoop, ne_eq, not_true_eq_false,
      if_false, reduceIte]
    cases hstop : (processStories e p.stories).2.2 with
    | true =>
      obtain ⟨s, hsmem, d, hp, hd⟩ := processStories_stop_exists e p.stories hstop
      have hrest0 : List.filterMap (emittedRow e) (storiesOf rest) = [] :=
        filterMap_eq_nil_of_none _ _ fun b hb =>
          emittedRow_none_after hp hd (hcross s hsmem b hb)
      simp [hstop, stdoutRows, List.filterMap_append, filterMap_outRow_map_row,
        filterMap_outRow_comp, outRow?, hrows, hrest0]
    | false =>
      by_cases hnext : p.nextId = ""
      · have hrest_nil : rest = [] := by
          cases rest with
          | nil => rfl
          | cons q t =>
            rw [show (p :: q :: t).dropLast = p :: (q :: t).dropLast from rfl] at hchain
            simp only [List.all_cons, Bool.and_eq_true] at hchain
            rw [hnext] at hchain
            simp at hchain
        subst hrest_nil
        simp [hstop, hnext, stdoutRows, List.filterMap_append,
          filterMap_outRow_map_row, filterMap_outRow_comp, outRow?, hrows, storiesOf]
      · have hchain' : rest.dropLast.all (fun p => p.nextId != "") = true := by
          cases rest with
          | nil => rfl
          | cons q t =>
            rw [show (p :: q :: t).dropLast = p :: (q :: t).dropLast from rfl] at hchain
            simp only [List.all_cons, Bool.and_eq_true] at hchain
            exact hchain.2
        have ihr := ih hd2 hchain'
        simp only [stdoutRows] at ihr
        simp [hstop, hnext, stdoutRows, List.filterMap_append,
          filterMap_outRow_map_row, filterMap_outRow_comp, outRow?, hrows, ihr]

/-- Once a page's processing reaches the end date, no page after it is
fetched. -/
theorem driveLoop_pages_bound (e : Int) (ps : List ResponseData) :
    ∀ i (hi : i < ps.length),
      (processStories e (ps.get ⟨i, hi⟩).stories).2.2 = true →
        pagesFetched e (ps.map goodFetch) ≤ i + 1 := by
  induction ps with
  | nil => intro i hi; simp at hi
  | cons p rest ih =>
    intro i hi hstop
    simp only [List.map_cons, goodFetch, pagesFetched, ne_eq, not_true_eq_false,
      if_false, reduceIte]
    cases hps : (processStories e p.stories).2.2 with
    | true => simp [hps]
    | false =>
      by_cases hnext : p.nextId = ""
      · simp [hps, hnext]
      · simp only [hps, Bool.false_eq_true, if_false, hnext, reduceIte]
        cases i with
        | zero => exact absurd hstop (by simp [hps])
        | succ j =>
          have hj : j < rest.length := Nat.lt_of_succ_lt_succ hi
          have hstop' : (processStories e (rest.get ⟨j, hj⟩).stories).2.2 = true := hstop
          have hb := ih j hj hstop'
          omega

/-- Two pages whose stories descend across the cutoff: the first is
emitted, the second stops the run inside page one, the third is never
reached. -/
def pagesFixture : List ResponseData :=
  [⟨"cursor1", [txTransferScenario, txOldDate]⟩, ⟨"", [txOld2022]⟩]

/-- C1 (amended): for a cutoff `e` and pages whose stories (those with
parseable dates) descend by date and whose cursors chain, the run emits
exactly one row per story the loop body classifies successfully — every
story dated no earlier than `e` except those skipped for an unparseable
date or, for payments, an unparseable amount — encountered before the
first story dated strictly before `e`; at that story the pipeline stops:
no later story of any page emits a row, and no page after the one
containing it is fetched. -/
theorem c1_driver_cutoff (e : Int) (ps : List ResponseData)
    (hdesc : allDesc (storiesOf ps) = true)
    (hchain : ps.dropLast.all (fun p => p.nextId != "") = true) :
    stdoutRows (driveLoop e (ps.map goodFetch)) =
      (storiesOf ps).filterMap (emittedRow e) ∧
    ∀ i (hi : i < ps.length),
      (processStories e (ps.get ⟨i, hi⟩).stories).2.2 = true →
        pagesFetched e (ps.map goodFetch) ≤ i + 1 :=
  ⟨driveLoop_rows e ps hdesc hchain, driveLoop_pages_bound e ps⟩

/-- C1 counterexample: a single page with one payment dated after the
cutoff whose amount string is unparseable — the sequence is descending and
the story's date is not before the cutoff, yet the run emits zero rows
where the claim demands exactly one. -/
theorem c1_counterexample :
    allDesc (storiesOf [⟨"", [txBadAmountJune]⟩]) = true ∧
    ([(⟨"", [txBadAmountJune]⟩ : ResponseData)].dropLast.all
      (fun p => p.nextId != "")) = true ∧
    parseTransactionDate txBadAmountJune.date = some june2024 ∧
    ¬june2024 < endDate2024 ∧
    stdoutRows (driveLoop endDate2024
      (List.map goodFetch [⟨"", [txBadAmountJune]⟩])) = [] := by
  refine ⟨by decide, by decide, by decide, by decide, by decide⟩

/-- C1 witness: the two-page fixture satisfies the descending and chaining
hypotheses, and the run stops inside the first page. -/
theorem c1_driver_witness :
    allDesc (storiesOf pagesFixture) = true ∧
    (pagesFixture.dropLast.all (fun p => p.nextId != "")) = true ∧
    (stdoutRows (driveLoop endDate2024 (pagesFixture.map goodFetch)) =
        (storiesOf pagesFixture).filterMap (emittedRow endDate2024) ∧
      ∀ i (hi : i < pagesFixture.length),
        (processStories endDate2024 (pagesFixture.get ⟨i, hi⟩).stories).2.2 = true →
          pagesFetched endDate2024 (pagesFixture.map goodFetch) ≤ i + 1) :=
  ⟨by decide, by decide,
    c1_driver_cutoff endDate2024 pagesFixture (by decide) (by decide)⟩

/-! ### Stream lemmas for C2 -/

theorem processStory_skip_msg (e : Int) (story : Transaction) (w : String)
    (h : processStory e story = .skip w) :
    w = "Failed to parse transaction date" ∨ w = "Failed to parse amount" := by
  cases hp : parseTransactionDate story.date with
  | none =>
    simp only [processStory, hp, StoryResult.skip.injEq] at h
    exact Or.inl h.symm
  | some d =>
    by_cases hd : d < e
    · simp [processStory, hp, hd] at h
    · cases hc : classifyStory story with
      | none =>
        simp only [processStory, hp, if_neg hd, hc, StoryResult.skip.injEq] at h
        exact Or.inr h.symm
      | some r => simp [processStory, hp, if_neg hd, hc] at h

theorem processStories_warnings (e : Int) (l : List Transaction) :
    ∀ w ∈ (processStories e l).2.1,
      w = "Failed to parse transaction date" ∨ w = "Failed to parse amount" := by
  induction l with
  | nil => simp [processStories]
  | cons story rest ih =>
    intro w hw
    cases hps : processStory e story with
    | stop => rw [processStories, hps] at hw; simp at hw
    | skip w' =>
      rw [processStories, hps] at hw
      rcases List.mem_cons.mp hw with h | h
      · exact h ▸ processStory_skip_msg e story w' hps
      · exact ih w h
    | emit row =>
      rw [processStories, hps] at hw
      exact ih w hw

/-- Shape of every stdout item the fetch loop can produce. -/
theorem driveLoop_stdout_items (e : Int) (fetches : List FetchResult) :
    ∀ item ∈ (driveLoop e fetches).stdout,
      (∃ r, item = OutItem.row r) ∨
      item = OutItem.line "Reached end date, stopping." ∨
      item = OutItem.line "No more transactions to fetch." := by
  induction fetches with
  | nil => simp [driveLoop]
  | cons f rest ih =>
    intro item hitem
    cases f with
    | transport err => simp [driveLoop] at hitem
    | response statusCode body =>
      by_cases hs : statusCode = 200
      · subst hs
        simp only [driveLoop, ne_eq, not_true_eq_false, if_false, reduceIte] at hitem
        cases body with
        | none => simp at hitem
        | some data =>
          simp only at hitem
          split at hitem
          · rcases List.mem_append.mp hitem with h | h
            · rcases List.mem_map.mp h with ⟨r, _, hr⟩
              exact Or.inl ⟨r, hr.symm⟩
            · simp at h
              exact Or.inr (Or.inl h)
          · split at hitem
            · rcases List.mem_append.mp hitem with h | h
              · rcases List.mem_map.mp h with ⟨r, _, hr⟩
                exact Or.inl ⟨r, hr.symm⟩
              · simp at h
                exact Or.inr (Or.inr h)
            · rcases List.mem_append.mp hitem with h | h
              · rcases List.mem_map.mp h with ⟨r, _, hr⟩
                exact Or.inl ⟨r, hr.symm⟩
              · exact ih item h
      · simp only [driveLoop, if_pos hs] at hitem
        simp at hitem

/-- Every stderr line the fetch loop can produce is a diagnostic. -/
theorem driveLoop_stderr_msgs (e : Int) (fetches : List FetchResult) :
    ∀ msg ∈ (driveLoop e fetches).stderr, msg ∈ diagnosticMessages := by
  induction fetches with
  | nil => simp [driveLoop]
  | cons f rest ih =>
    intro msg hmsg
    cases f with
    | transport err =>
      simp only [driveLoop, List.mem_singleton] at hmsg
      simp [hmsg, diagnosticMessages]
    | response statusCode body =>
      by_cases hs : statusCode = 200
      · subst hs
        simp only [driveLoop, ne_eq, not_true_eq_false, if_false, reduceIte] at hmsg
        cases body with
        | none =>
          simp only [List.mem_singleton] at hmsg
          simp [hmsg, diagnosticMessages]
        | some data =>
          simp only at hmsg
          have warn :
              msg ∈ (processStories e data.stories).2.1 → msg ∈ diagnosticMessages := by
            intro hw
            rcases processStories_warnings e data.stories msg hw with h | h <;>
              simp [h, diagnosticMessages]
          split at hmsg
          · exact warn hmsg
          · split at hmsg
            · exact warn hmsg
            · rcases List.mem_append.mp hmsg with h | h
              · exact warn h
              · exact ih msg h
      · simp only [driveLoop, if_pos hs, List.mem_singleton] at hmsg
        simp [hmsg, diagnosticMessages]

/-- C2 (amended): every stdout item of a run is a CSV record (header or
data row) or one of the two status lines printed by `fmt.Println`, and
every stderr line is one of the `log` diagnostics; in particular the parse
warnings go only to the diagnostic stream, but the reached-end-date and
no-more-pages messages go to standard output, the same stream as the CSV. -/
theorem c2_streams (endDate : String) (fetches : List FetchResult) :
    (∀ item ∈ (mainRun endDate fetches).stdout,
      (∃ r, item = OutItem.row r) ∨
      item = OutItem.line "Reached end date, stopping." ∨
      item = OutItem.line "No more transactions to fetch.") ∧
    (∀ msg ∈ (mainRun endDate fetches).stderr, msg ∈ diagnosticMessages) := by
  unfold mainRun
  cases hp : parseDateOnly endDate with
  | none =>
    constructor
    · simp
    · intro msg hmsg
      simp only [List.mem_singleton] at hmsg
      simp [hmsg, diagnosticMessages]
  | some e =>
    constructor
    · intro item hitem
      simp only [List.mem_cons] at hitem
      rcases hitem with h | h
      · exact Or.inl ⟨csvHeaders, h⟩
      · exact driveLoop_stdout_items e fetches item h
    · intro msg hmsg
      exact driveLoop_stderr_msgs e fetches msg hmsg

/-- C2 counterexample: a run that reaches the end date writes the
"Reached end date, stopping." status line to standard output — the CSV
stream — while standard error stays empty, so the CSV stream does not
contain only the header and data rows. -/
theorem c2_counterexample :
    OutItem.line "Reached end date, stopping."
        ∈ (mainRun "2024-01-01" [goodFetch ⟨"", [txOldDate]⟩]).stdout ∧
    (mainRun "2024-01-01" [goodFetch ⟨"", [txOldDate]⟩]).stderr = [] ∧
    (mainRun "2024-01-01" [goodFetch ⟨"", [txOldDate]⟩]).stdout
      = [.row csvHeaders, .line "Reached end date, stopping."] := by
  refine ⟨by decide, by decide, by decide⟩

/-- C2 witness: the no-more-pages status line of a concrete run is among
the allowed stdout shapes. -/
theorem c2_streams_witness :
    (∃ r, OutItem.line "No more transactions to fetch." = OutItem.row r) ∨
    OutItem.line "No more transactions to fetch."
      = OutItem.line "Reached end date, stopping." ∨
    OutItem.line "No more transactions to fetch."
      = OutItem.line "No more transactions to fetch." :=
  (c2_streams "2024-01-01" [goodFetch ⟨"", [txTransferScenario]⟩]).1
    (OutItem.line "No more transactions to fetch.") (by decide)

/-- C3 (amended): the fetch aborts the run fatally (empty output, the
fetch-failure diagnostic, non-zero exit, no transactions processed, no
further pages fetched) exactly when the status code differs from 200;
only a 200 response is processed — other 2xx statuses are fatal too. -/
theorem c3_status_check (e : Int) (statusCode : Nat) (d : ResponseData) :
    (∀ (body : Option ResponseData) (rest : List FetchResult), statusCode ≠ 200 →
      driveLoop e (.response statusCode body :: rest)
          = ⟨[], ["Failed to fetch transactions"], false⟩ ∧
        pagesFetched e (.response statusCode body :: rest) = 1) ∧
    (driveLoop e [.response statusCode (some d)]
        = ⟨[], ["Failed to fetch transactions"], false⟩ ↔ statusCode ≠ 200) := by
  constructor
  · intro body rest h
    constructor <;> simp [driveLoop, pagesFetched, h]
  · constructor
    · intro hEq heq
      subst heq
      simp only [driveLoop, ne_eq, not_true_eq_false, if_false, reduceIte] at hEq
      split at hEq <;> simp_all
      split at hEq <;> simp_all [driveLoop]
    · intro h
      simp [driveLoop, h]

/-- C3 counterexample: HTTP 204 is a success (2xx) status, yet the run
aborts fatally on it without processing the page's transaction. -/
theorem c3_counterexample :
    (200 ≤ 204 ∧ 204 < 300) ∧
    driveLoop endDate2024 [.response 204 (some ⟨"", [txTransferScenario]⟩)]
      = ⟨[], ["Failed to fetch transactions"], false⟩ ∧
    pagesFetched endDate2024 [.response 204 (some ⟨"", [txTransferScenario]⟩)] = 1 := by
  refine ⟨by decide, by decide, by decide⟩

/-- C3 witness: a 500 response aborts with the fetch-failure diagnostic
and no further pages. -/
theorem c3_status_witness :
    driveLoop endDate2024
        [FetchResult.response 500 (some ⟨"n", [txTransferScenario]⟩),
          goodFetch ⟨"", [txPaymentScenario]⟩]
      = ⟨[], ["Failed to fetch transactions"], false⟩ ∧
    pagesFetched endDate2024
        [FetchResult.response 500 (some ⟨"n", [txTransferScenario]⟩),
          goodFetch ⟨"", [txPaymentScenario]⟩] = 1 :=
  (c3_status_check endDate2024 500 ⟨"n", [txTransferScenario]⟩).1
    (some ⟨"n", [txTransferScenario]⟩) [goodFetch ⟨"", [txPaymentScenario]⟩]
    (by decide)

/-- C4 witness: a transfer dated exactly at the cutoff is not stopped and
is emitted. -/
theorem c4_cutoff_witness :
    parseDateOnly "2024-01-01" = some endDate2024 ∧
    parseTransactionDate txTransferAtCutoff.date = some endDate2024 ∧
    (processStory endDate2024 txTransferAtCutoff ≠ .stop ∧
      ∀ r, classifyStory txTransferAtCutoff = some r →
        processStory endDate2024 txTransferAtCutoff = .emit r) :=
  ⟨by decide, by decide,
    c4_cutoff_boundary endDate2024 txTransferAtCutoff (by decide)⟩

end VenmoExport
